import Mathlib

/-!
Shallow embedding of the maelstrom broadcast/counter node programs
(`src/lib.rs`, `src/bin/broadcast_3b.rs`, `src/bin/broadcast.rs`,
`src/bin/counter.rs`) and proofs about them.

Conventions of the embedding:
* `usize` values become `Nat`; `HashSet<usize>` becomes `Finset Nat`.
* `HashMap<String, V>` becomes either `String → Option V` (node-internal
  `known` map) or an association list (wire payloads, counter slots).
* Functions that can `panic!` / `unreachable!` / `expect` return `Option`:
  `none` models process termination by panic.
* The RNG draw `rnd.gen_ratio (cap, n)` is modelled by an oracle
  `rnd : String → Nat → Bool` giving the coin outcome per neighbor and
  per set element; the Bernoulli success probability it is called with is
  modelled separately (`inclusion_prob`) and the distribution of the
  whole accepted subset by `sampleWeight`/`sampleExpectation`.
-/

/-- The `Body` from `src/lib.rs`: optional message id, optional correlation id, payload. -/
structure Body (α : Type) where
  id : Option Nat
  in_reply_to : Option Nat
  payload : α
  deriving DecidableEq

/-- The `Message` from `src/lib.rs`: envelope with source, destination and body. -/
structure Message (α : Type) where
  src : String
  dst : String
  body : Body α
  deriving DecidableEq

/-- The `Message::into_reply` from `src/lib.rs`.  The Rust function takes
`Option<&mut usize>`; we model the mutable counter by returning the new
counter value alongside the reply: the reply's `id` is the counter's value
before the call, and the counter is advanced by one (or left `none`). -/
def Message.into_reply {α : Type} (m : Message α) (msg_id : Option Nat) : Message α × Option Nat :=
  ({ src := m.dst
     dst := m.src
     body :=
      { payload := m.body.payload
        id := msg_id
        in_reply_to := m.body.id } },
   msg_id.map (· + 1))

/-- The `GossipProtocol` from `src/bin/broadcast_3b.rs`. -/
inductive GossipProtocol where
  | GossipAlert : GossipProtocol
  | Gossip (messages : Finset Nat) : GossipProtocol
  deriving DecidableEq

/-- The `BroadcastMessage` from `src/bin/broadcast_3b.rs`.  The wire
`HashMap<String, Vec<String>>` of the topology payload is embedded as an
association list with (string) node-id keys. -/
inductive BroadcastMessage where
  | Broadcast (message : Nat) : BroadcastMessage
  | BroadcastOk : BroadcastMessage
  | Read : BroadcastMessage
  | ReadOk (messages : Finset Nat) : BroadcastMessage
  | Topology (topology : List (String × List String)) : BroadcastMessage
  | TopologyOk : BroadcastMessage
  | Extended (g : GossipProtocol) : BroadcastMessage
  deriving DecidableEq

/-- Association-list lookup, the embedding of `HashMap::remove`/`HashMap` key
lookup on wire payloads (wire maps have no duplicate keys). -/
def lookupKV : List (String × α) → String → Option α
  | [], _ => none
  | (k', v) :: rest, k => if k' = k then some v else lookupKV rest k

/-- The `BroadcastNode` state from `src/bin/broadcast_3b.rs` (the field name
`neightbors` is the source's spelling).  `known: HashMap<String, HashSet<usize>>`
is embedded as `String → Option (Finset Nat)`. -/
structure BroadcastNode where
  id : String
  msg_id : Nat
  messages : Finset Nat
  neightbors : List String
  known : String → Option (Finset Nat)

/-- The `unknown ∪ sampled-known` value set of one gossip message in the
`GossipAlert` arm of `BroadcastNode::handle_external`: `messages` is
partitioned by membership in `known_msg` and the known part is filtered by
the RNG coin oracle. -/
def gossipSet (messages known_msg : Finset Nat) (rnd : String → Nat → Bool)
    (neighbor : String) : Finset Nat :=
  (messages.filter (fun m => m ∉ known_msg)) ∪
    ((messages.filter (fun m => m ∈ known_msg)).filter (fun m => rnd neighbor m))

/-- The `additional_cap` from the `GossipAlert` arm:
`unknown.len().min(3236 * known.len() / 10000)` (integer division). -/
def additional_cap (messages known_msg : Finset Nat) : Nat :=
  min (messages.filter (fun m => m ∉ known_msg)).card
    (3236 * (messages.filter (fun m => m ∈ known_msg)).card / 10000)

/-- One gossip message of the `GossipAlert` arm, addressed to `neighbor`
whose known set is `known_msg`: `id` and `in_reply_to` are
`Default::default()`, i.e. `none`. -/
def gossipMsgFor (node : BroadcastNode) (rnd : String → Nat → Bool)
    (neighbor : String) (known_msg : Finset Nat) : Message BroadcastMessage :=
  { src := node.id
    dst := neighbor
    body :=
      { id := none
        in_reply_to := none
        payload := .Extended (.Gossip (gossipSet node.messages known_msg rnd neighbor)) } }

/-- The `for neighbor in &self.neightbors` loop of the `GossipAlert` arm:
one gossip message per list entry; `self.known[neighbor]` panics (`none`)
when the neighbor has no entry in `known`. -/
def gossipMsgs (node : BroadcastNode) (rnd : String → Nat → Bool) :
    List String → Option (List (Message BroadcastMessage))
  | [] => some []
  | neighbor :: rest =>
    match node.known neighbor with
    | none => none
    | some known_msg =>
      match gossipMsgs node rnd rest with
      | none => none
      | some msgs => some (gossipMsgFor node rnd neighbor known_msg :: msgs)

/-- The full `GossipAlert` handling: messages for every current neighbor. -/
def gossipAlertStep (node : BroadcastNode) (rnd : String → Nat → Bool) :
    Option (List (Message BroadcastMessage)) :=
  gossipMsgs node rnd node.neightbors

/-- The `BroadcastNode::handle_external` from `src/bin/broadcast_3b.rs`.
Returns the successor state and the list of messages written to output, or
`none` on panic (`expect` on a missing `known` entry). -/
def BroadcastNode.handle_external (node : BroadcastNode)
    (req : Message BroadcastMessage) (rnd : String → Nat → Bool)
    (external : GossipProtocol) :
    Option (BroadcastNode × List (Message BroadcastMessage)) :=
  match external with
  | .GossipAlert =>
    match gossipAlertStep node rnd with
    | none => none
    | some msgs => some (node, msgs)
  | .Gossip messages =>
    match node.known req.src with
    | none => none
    | some ks =>
      some ({ node with
                known := fun s => if s = req.src then some (ks ∪ messages) else node.known s
                messages := node.messages ∪ messages },
            [])

/-- The `BroadcastNode::init_from` (`src/bin/broadcast_3b.rs`): `msg_id = 1`,
empty `messages`, neighbors initialised to all node ids, and `known` holding
one empty set per id of `node_ids`.  (The spawned timer thread is modelled
by delivering `GossipAlert` events to `step`.) -/
def BroadcastNode.init_from (node_id : String) (node_ids : List String) : BroadcastNode :=
  { id := node_id
    msg_id := 1
    messages := ∅
    neightbors := node_ids
    known := fun s => if s ∈ node_ids then some ∅ else none }

/-- The `BroadcastNode::step` from `src/bin/broadcast_3b.rs`.  Result: successor
state and output messages, `none` on panic (missing topology entry /
missing `known` entry). The `Read` arm mirrors the source's double
`mem::swap`: the local set is swapped out, serialized, and swapped back. -/
def BroadcastNode.step (node : BroadcastNode) (req : Message BroadcastMessage)
    (rnd : String → Nat → Bool) :
    Option (BroadcastNode × List (Message BroadcastMessage)) :=
  match req.body.payload with
  | .Broadcast message =>
    let messages' := insert message node.messages
    let (reply, msg_id') : Message BroadcastMessage × Option Nat :=
      req.into_reply (some node.msg_id)
    some ({ node with messages := messages', msg_id := msg_id'.getD node.msg_id },
          [{ reply with body := { reply.body with payload := .BroadcastOk } }])
  | .Read =>
    let (reply, msg_id') : Message BroadcastMessage × Option Nat :=
      req.into_reply (some node.msg_id)
    -- swap: self.messages ↦ ∅, tmp_messages ↦ old set
    let tmp_messages := node.messages
    let node₁ := { node with messages := (∅ : Finset Nat), msg_id := msg_id'.getD node.msg_id }
    let reply : Message BroadcastMessage :=
      { reply with body := { reply.body with payload := .ReadOk tmp_messages } }
    -- after sending, the set is destructured out of the payload and swapped back
    match reply.body.payload with
    | .ReadOk messages => some ({ node₁ with messages := messages }, [reply])
    | _ => none   -- the source's `unreachable!()`
  | .Topology topology =>
    match lookupKV topology node.id with
    | none => none   -- unwrap_or_else(|| panic!("no topology given for node .."))
    | some nbrs =>
      let (reply, msg_id') : Message BroadcastMessage × Option Nat :=
      req.into_reply (some node.msg_id)
      some ({ node with neightbors := nbrs, msg_id := msg_id'.getD node.msg_id },
            [{ reply with body := { reply.body with payload := .TopologyOk } }])
  | .TopologyOk => some (node, [])
  | .BroadcastOk => some (node, [])
  | .ReadOk _ => some (node, [])
  | .Extended external => node.handle_external req rnd external

/-- A run of the broadcast node: fold `step` over a list of events (each an
inbound message or synthesized tick paired with its RNG oracle), stopping
with `none` if any step panics. -/
def runSteps : BroadcastNode → List (Message BroadcastMessage × (String → Nat → Bool)) →
    Option BroadcastNode
  | node, [] => some node
  | node, e :: rest =>
    match node.step e.1 e.2 with
    | none => none
    | some (node', _) => runSteps node' rest

/-- The `BroadcastMessage` from `src/bin/broadcast.rs` (the simpler variant:
no gossip extension; the topology payload maps to `Vec<usize>` there). -/
inductive SimpleBroadcastMessage where
  | Broadcast (message : Nat) : SimpleBroadcastMessage
  | BroadcastOk : SimpleBroadcastMessage
  | Read : SimpleBroadcastMessage
  | ReadOk (messages : Finset Nat) : SimpleBroadcastMessage
  | Topology (topology : List (String × List Nat)) : SimpleBroadcastMessage
  | TopologyOk : SimpleBroadcastMessage
  deriving DecidableEq

/-- The `BroadcastNode` state from `src/bin/broadcast.rs`. -/
structure SimpleBroadcastNode where
  id : String
  msg_id : Nat
  messages : Finset Nat
  deriving DecidableEq

/-- The `BroadcastNode::step` from `src/bin/broadcast.rs`: total, no panics. -/
def SimpleBroadcastNode.step (node : SimpleBroadcastNode)
    (req : Message SimpleBroadcastMessage) :
    SimpleBroadcastNode × List (Message SimpleBroadcastMessage) :=
  match req.body.payload with
  | .Broadcast message =>
    let messages' := insert message node.messages
    let (reply, msg_id') : Message SimpleBroadcastMessage × Option Nat :=
      req.into_reply (some node.msg_id)
    ({ node with messages := messages', msg_id := msg_id'.getD node.msg_id },
     [{ reply with body := { reply.body with payload := .BroadcastOk } }])
  | .Read =>
    let (reply, msg_id') : Message SimpleBroadcastMessage × Option Nat :=
      req.into_reply (some node.msg_id)
    ({ node with msg_id := msg_id'.getD node.msg_id },
     [{ reply with body := { reply.body with payload := .ReadOk node.messages } }])
  | .Topology _ =>
    let (reply, msg_id') : Message SimpleBroadcastMessage × Option Nat :=
      req.into_reply (some node.msg_id)
    ({ node with msg_id := msg_id'.getD node.msg_id },
     [{ reply with body := { reply.body with payload := .TopologyOk } }])
  | .TopologyOk => (node, [])
  | .BroadcastOk => (node, [])
  | .ReadOk _ => (node, [])

/-- The `GossipProtocol` from `src/bin/counter.rs`: the gossiped payload is the
whole counter map (embedded as an association list of slots). -/
inductive CounterGossip where
  | GossipAlert : CounterGossip
  | Gossip (counter : List (String × Nat)) : CounterGossip
  deriving DecidableEq

/-- The `GlobalCounter` from `src/bin/counter.rs`. -/
inductive GlobalCounter where
  | Add (delta : Nat) : GlobalCounter
  | AddOk : GlobalCounter
  | Read : GlobalCounter
  | ReadOk (value : Nat) : GlobalCounter
  | Extended (g : CounterGossip) : GlobalCounter
  deriving DecidableEq

/-- The `Counter::add` (`src/bin/counter.rs`):
`entry(key).and_modify(|v| *v += delta).or_insert(delta)` on an
association list with unique keys. -/
def counterAdd : List (String × Nat) → String → Nat → List (String × Nat)
  | [], k, d => [(k, d)]
  | (k', v) :: rest, k, d =>
    if k' = k then (k', v + d) :: rest else (k', v) :: counterAdd rest k d

/-- One incoming slot merged into the local map, the loop body of
`Counter::merge`: `entry(k).and_modify(|value| *value = v.max(*value)).or_insert(v)`. -/
def insertMax : List (String × Nat) → String → Nat → List (String × Nat)
  | [], k, v => [(k, v)]
  | (k', v') :: rest, k, v =>
    if k' = k then (k', max v v') :: rest else (k', v') :: insertMax rest k v

/-- The `Counter::merge` (`src/bin/counter.rs`): fold every incoming slot into
the local map with `insertMax`. -/
def mergeCounter (loc incoming : List (String × Nat)) : List (String × Nat) :=
  incoming.foldl (fun acc kv => insertMax acc kv.1 kv.2) loc

/-- The `Counter::sum` (`src/bin/counter.rs`): sum of all slot values. -/
def sumCounter (c : List (String × Nat)) : Nat :=
  (c.map Prod.snd).sum

/-- The `BroadcastNode` state from `src/bin/counter.rs` (`inner` is the counter map). -/
structure CounterNode where
  id : String
  msg_id : Nat
  neightbors : List String
  inner : List (String × Nat)
  deriving DecidableEq

/-- The `BroadcastNode::init_from` from `src/bin/counter.rs`: `msg_id = 1`,
neighbors are all node ids, and the counter holds a zero slot per node id. -/
def CounterNode.init_from (node_id : String) (node_ids : List String) : CounterNode :=
  { id := node_id
    msg_id := 1
    neightbors := node_ids
    inner := node_ids.map (fun nid => (nid, 0)) }

/-- The `BroadcastNode::step` from `src/bin/counter.rs`.  `none` models the
`unreachable!()` panic on `read_ok`/`add_ok` payloads. -/
def CounterNode.step (node : CounterNode) (req : Message GlobalCounter) :
    Option (CounterNode × List (Message GlobalCounter)) :=
  match req.body.payload with
  | .Add delta =>
    let inner' := counterAdd node.inner req.dst delta
    let (reply, msg_id') : Message GlobalCounter × Option Nat :=
      req.into_reply (some node.msg_id)
    some ({ node with inner := inner', msg_id := msg_id'.getD node.msg_id },
          [{ reply with body := { reply.body with payload := .AddOk } }])
  | .Read =>
    let (reply, msg_id') : Message GlobalCounter × Option Nat :=
      req.into_reply (some node.msg_id)
    some ({ node with msg_id := msg_id'.getD node.msg_id },
          [{ reply with body := { reply.body with payload := .ReadOk (sumCounter node.inner) } }])
  | .Extended .GossipAlert =>
    some (node,
      (node.neightbors.filter (fun nbr => nbr ≠ node.id)).map (fun nbr =>
        { src := node.id
          dst := nbr
          body :=
            { id := none
              in_reply_to := none
              payload := .Extended (.Gossip node.inner) } }))
  | .Extended (.Gossip counter) =>
    some ({ node with inner := mergeCounter node.inner counter }, [])
  | .ReadOk _ => none   -- `unreachable!()`
  | .AddOk => none      -- `unreachable!()`

/-- Probability, under independent Bernoulli(`p`) draws for each element of
`overlap` (the `rnd.gen_ratio` coin of the `GossipAlert` arm), that exactly
the subset `t` of `overlap` is accepted by the filter. -/
def sampleWeight (p : ℚ) (overlap t : Finset Nat) : ℚ :=
  p ^ t.card * (1 - p) ^ (overlap.card - t.card)

/-- Expected number of accepted (redundant) elements: sum, over all subsets
of `overlap`, of the subset's probability times its size. -/
def sampleExpectation (p : ℚ) (overlap : Finset Nat) : ℚ :=
  ∑ t ∈ overlap.powerset, sampleWeight p overlap t * t.card

/-- The Bernoulli success probability of the `GossipAlert` coin:
`rnd.gen_ratio(additional_cap, known.len())`, i.e. `additional_cap / |overlap|`
(the coin is never drawn when `overlap` is empty; we set the probability
to `0` there). -/
def inclusion_prob (messages known_msg : Finset Nat) : ℚ :=
  let k := (messages.filter (fun m => m ∈ known_msg)).card
  if k = 0 then 0 else (additional_cap messages known_msg : ℚ) / k

/-- Total mass of the sample distribution is `1`. -/
lemma sampleWeight_total (p : ℚ) (s : Finset Nat) :
    ∑ t ∈ s.powerset, sampleWeight p s t = 1 := by
  induction s using Finset.induction_on with
  | empty => simp [sampleWeight]
  | insert ha ih =>
    rename_i a s
    rw [Finset.sum_powerset_insert ha]
    have hcard : (insert a s).card = s.card + 1 := Finset.card_insert_of_not_mem ha
    have h₁ : ∀ t ∈ s.powerset, sampleWeight p (insert a s) t =
        (1 - p) * sampleWeight p s t := by
      intro t ht
      have hts : t ⊆ s := Finset.mem_powerset.mp ht
      have htc : t.card ≤ s.card := Finset.card_le_card hts
      unfold sampleWeight
      rw [hcard, Nat.succ_sub htc, pow_succ]
      ring
    have h₂ : ∀ t ∈ s.powerset, sampleWeight p (insert a s) (insert a t) =
        p * sampleWeight p s t := by
      intro t ht
      have hts : t ⊆ s := Finset.mem_powerset.mp ht
      have hat : a ∉ t := fun h => ha (hts h)
      have htc : t.card ≤ s.card := Finset.card_le_card hts
      unfold sampleWeight
      rw [hcard, Finset.card_insert_of_not_mem hat, Nat.succ_sub_succ, pow_succ]
      ring
    rw [Finset.sum_congr rfl h₁, Finset.sum_congr rfl h₂, ← Finset.mul_sum,
      ← Finset.mul_sum, ih]
    ring

/-- Mean of the sample-size distribution: `|s| * p` (linearity of
expectation for `|s|` independent Bernoulli(`p`) indicators, proved here
directly from the finite distribution). -/
lemma sampleExpectation_eq (p : ℚ) (s : Finset Nat) :
    sampleExpectation p s = s.card * p := by
  induction s using Finset.induction_on with
  | empty => simp [sampleExpectation, sampleWeight]
  | insert ha ih =>
    rename_i a s
    unfold sampleExpectation
    rw [Finset.sum_powerset_insert ha]
    have hcard : (insert a s).card = s.card + 1 := Finset.card_insert_of_not_mem ha
    have h₁ : ∀ t ∈ s.powerset, sampleWeight p (insert a s) t * t.card =
        (1 - p) * (sampleWeight p s t * t.card) := by
      intro t ht
      have hts : t ⊆ s := Finset.mem_powerset.mp ht
      have htc : t.card ≤ s.card := Finset.card_le_card hts
      unfold sampleWeight
      rw [hcard, Nat.succ_sub htc, pow_succ]
      ring
    have h₂ : ∀ t ∈ s.powerset, sampleWeight p (insert a s) (insert a t) * (insert a t).card =
        p * (sampleWeight p s t * t.card) + p * sampleWeight p s t := by
      intro t ht
      have hts : t ⊆ s := Finset.mem_powerset.mp ht
      have hat : a ∉ t := fun h => ha (hts h)
      have htc : t.card ≤ s.card := Finset.card_le_card hts
      unfold sampleWeight
      rw [hcard, Finset.card_insert_of_not_mem hat, Nat.succ_sub_succ, pow_succ,
        Nat.cast_add, Nat.cast_one]
      ring
    rw [Finset.sum_congr rfl h₁, Finset.sum_congr rfl h₂, Finset.sum_add_distrib,
      ← Finset.mul_sum, ← Finset.mul_sum, ← Finset.mul_sum]
    have ihs : ∑ t ∈ s.powerset, sampleWeight p s t * t.card = s.card * p := ih
    rw [ihs, sampleWeight_total, hcard]
    push_cast
    ring

/-- The expected number of redundant values in one gossip payload is at most
`|overlap| * 0.3236`. -/
lemma sampleExpectation_le (messages known_msg : Finset Nat) :
    sampleExpectation (inclusion_prob messages known_msg)
        (messages.filter (fun m => m ∈ known_msg)) ≤
      ((messages.filter (fun m => m ∈ known_msg)).card : ℚ) * (3236 / 10000) := by
  set k := (messages.filter (fun m => m ∈ known_msg)).card with hk
  rw [sampleExpectation_eq]
  unfold inclusion_prob
  rw [← hk]
  by_cases h0 : k = 0
  · simp [h0]
  · rw [if_neg h0]
    have hkpos : (0 : ℚ) < k := by
      exact_mod_cast Nat.pos_of_ne_zero h0
    rw [mul_div_cancel₀ _ (ne_of_gt hkpos)]
    have hcap : additional_cap messages known_msg ≤ 3236 * k / 10000 :=
      min_le_right _ _
    calc (additional_cap messages known_msg : ℚ)
        ≤ ((3236 * k / 10000 : ℕ) : ℚ) := by exact_mod_cast hcap
      _ ≤ (3236 * k : ℚ) / 10000 := by
          simpa using (Nat.cast_div_le (α := ℚ) (m := 3236 * k) (n := 10000))
      _ = (k : ℚ) * (3236 / 10000) := by ring

/-- C3: for every request message and every counter state, `into_reply`
returns a message whose `src` equals the request's `dst`, whose `dst` equals
the request's `src`, whose `in_reply_to` equals the request's body id, whose
`id` equals the counter's value before the call with the counter advanced by
exactly 1 (or `id = none` when no counter is supplied, with no counter
change), and whose payload equals the request's payload. -/
theorem c3_into_reply_spec {α : Type} (m : Message α) (c : Nat) :
    (m.into_reply (some c)).1.src = m.dst ∧
    (m.into_reply (some c)).1.dst = m.src ∧
    (m.into_reply (some c)).1.body.in_reply_to = m.body.id ∧
    (m.into_reply (some c)).1.body.id = some c ∧
    (m.into_reply (some c)).2 = some (c + 1) ∧
    (m.into_reply (some c)).1.body.payload = m.body.payload ∧
    (m.into_reply none).1.src = m.dst ∧
    (m.into_reply none).1.dst = m.src ∧
    (m.into_reply none).1.body.in_reply_to = m.body.id ∧
    (m.into_reply none).1.body.id = none ∧
    (m.into_reply none).2 = none ∧
    (m.into_reply none).1.body.payload = m.body.payload :=
  ⟨rfl, rfl, rfl, rfl, rfl, rfl, rfl, rfl, rfl, rfl, rfl, rfl⟩

/-- C2: processing a `Gossip` message carrying `values` from sender
`req.src` merges `values` into both `messages` and `known[req.src]`; no
other key of `known` changes, nothing else in the state changes, and no
reply is emitted. -/
theorem c2_gossip_merge (node : BroadcastNode) (req : Message BroadcastMessage)
    (rnd : String → Nat → Bool) (values ks : Finset Nat)
    (hp : req.body.payload = .Extended (.Gossip values))
    (hk : node.known req.src = some ks) :
    ∃ node', node.step req rnd = some (node', []) ∧
      node'.messages = node.messages ∪ values ∧
      node'.known req.src = some (ks ∪ values) ∧
      (∀ s, s ≠ req.src → node'.known s = node.known s) ∧
      node'.id = node.id ∧ node'.msg_id = node.msg_id ∧
      node'.neightbors = node.neightbors := by
  refine ⟨{ node with
              known := fun s => if s = req.src then some (ks ∪ values) else node.known s
              messages := node.messages ∪ values },
    ?_, rfl, by simp, ?_, rfl, rfl, rfl⟩
  · simp [BroadcastNode.step, hp, BroadcastNode.handle_external, hk]
  · intro s hs
    simp [hs]

/-- C4: a `Topology` message whose map lacks the node's own id makes the
step panic (fatal, no default); otherwise `neightbors` is replaced wholesale
by the mapped list and the node replies `topology_ok`. -/
theorem c4_topology (node : BroadcastNode) (req : Message BroadcastMessage)
    (rnd : String → Nat → Bool) (topo : List (String × List String))
    (hp : req.body.payload = .Topology topo) :
    (lookupKV topo node.id = none → node.step req rnd = none) ∧
    (∀ nbrs, lookupKV topo node.id = some nbrs →
      ∃ node' r, node.step req rnd = some (node', [r]) ∧
        node'.neightbors = nbrs ∧
        r.body.payload = .TopologyOk ∧
        r.src = req.dst ∧ r.dst = req.src ∧
        r.body.in_reply_to = req.body.id ∧ r.body.id = some node.msg_id ∧
        node'.msg_id = node.msg_id + 1 ∧
        node'.messages = node.messages ∧ node'.known = node.known ∧
        node'.id = node.id) := by
  constructor
  · intro h
    simp [BroadcastNode.step, hp, h]
  · intro nbrs h
    refine ⟨{ node with neightbors := nbrs, msg_id := node.msg_id + 1 },
      { src := req.dst, dst := req.src,
        body := { id := some node.msg_id, in_reply_to := req.body.id,
                  payload := .TopologyOk } },
      ?_, rfl, rfl, rfl, rfl, rfl, rfl, rfl, rfl, rfl, rfl⟩
    simp [BroadcastNode.step, hp, h, Message.into_reply]

/-- C5: a `Read` request is answered with `read_ok` carrying exactly the
current `messages` set (a value copy — the double `mem::swap` of the source
restores the set); afterwards `messages`, `neightbors` and `known` are
unchanged and only `msg_id` changed, by exactly 1. -/
theorem c5_read_snapshot (node : BroadcastNode) (req : Message BroadcastMessage)
    (rnd : String → Nat → Bool) (hp : req.body.payload = .Read) :
    ∃ node' r, node.step req rnd = some (node', [r]) ∧
      r.body.payload = .ReadOk node.messages ∧
      r.src = req.dst ∧ r.dst = req.src ∧
      r.body.in_reply_to = req.body.id ∧ r.body.id = some node.msg_id ∧
      node'.messages = node.messages ∧
      node'.neightbors = node.neightbors ∧
      node'.known = node.known ∧
      node'.id = node.id ∧
      node'.msg_id = node.msg_id + 1 := by
  refine ⟨{ node with msg_id := node.msg_id + 1 },
    { src := req.dst, dst := req.src,
      body := { id := some node.msg_id, in_reply_to := req.body.id,
                payload := .ReadOk node.messages } },
    ?_, rfl, rfl, rfl, rfl, rfl, rfl, rfl, rfl, rfl, rfl⟩
  simp [BroadcastNode.step, hp, Message.into_reply]

/-- Shape of a successful `GossipAlert` loop: one gossip message per
neighbor-list entry, in order, each built by `gossipMsgFor` from that
neighbor's `known` entry. -/
lemma gossipMsgs_spec (node : BroadcastNode) (rnd : String → Nat → Bool)
    (l : List String) (msgs : List (Message BroadcastMessage))
    (h : gossipMsgs node rnd l = some msgs) :
    msgs.length = l.length ∧
    msgs.map (fun m => m.dst) = l ∧
    ∀ (i : Nat) (neighbor : String), l[i]? = some neighbor →
      ∃ known_msg, node.known neighbor = some known_msg ∧
        msgs[i]? = some (gossipMsgFor node rnd neighbor known_msg) := by
  induction l generalizing msgs with
  | nil =>
    simp [gossipMsgs] at h
    subst h
    simp
  | cons neighbor rest ih =>
    rw [gossipMsgs] at h
    cases hk : node.known neighbor with
    | none =>
      rw [hk] at h
      exact absurd h (by simp)
    | some known_msg =>
      rw [hk] at h
      cases hrest : gossipMsgs node rnd rest with
      | none =>
        rw [hrest] at h
        exact absurd h (by simp)
      | some msgs' =>
        rw [hrest] at h
        simp only [Option.some_inj] at h
        subst h
        obtain ⟨h1, h2, h3⟩ := ih msgs' hrest
        refine ⟨by simp [h1], by simp [gossipMsgFor, h2], ?_⟩
        intro i nbr hi
        cases i with
        | zero =>
          simp only [List.getElem?_cons_zero, Option.some_inj] at hi
          subst hi
          exact ⟨known_msg, hk, by simp⟩
        | succ j =>
          simp only [List.getElem?_cons_succ] at hi ⊢
          exact h3 j nbr hi

/-- C1: on an internal gossip tick, each entry of the neighbor list gets
exactly one gossip message (in list order) whose value set contains all of
`messages \ known[neighbor]`, contains nothing outside `messages`, and
contains each element of `messages ∩ known[neighbor]` exactly when the
Bernoulli coin for it came up true — the coin's success probability being
`additional_cap / |overlap|` with
`additional_cap = min |unknown| ⌊|overlap| * 0.3236⌋` — so the expected
number of redundant values is at most `|overlap| * 0.3236`. -/
theorem c1_gossip_tick_payload (node : BroadcastNode) (rnd : String → Nat → Bool)
    (msgs : List (Message BroadcastMessage))
    (h : gossipAlertStep node rnd = some msgs)
    (i : Nat) (neighbor : String)
    (hnb : node.neightbors[i]? = some neighbor) :
    msgs.length = node.neightbors.length ∧
    msgs.map (fun m => m.dst) = node.neightbors ∧
    ∃ known_msg, node.known neighbor = some known_msg ∧
      msgs[i]? = some
        { src := node.id
          dst := neighbor
          body :=
            { id := none
              in_reply_to := none
              payload := .Extended (.Gossip (gossipSet node.messages known_msg rnd neighbor)) } } ∧
      node.messages \ known_msg ⊆ gossipSet node.messages known_msg rnd neighbor ∧
      gossipSet node.messages known_msg rnd neighbor ⊆ node.messages ∧
      (∀ x ∈ node.messages ∩ known_msg,
        (x ∈ gossipSet node.messages known_msg rnd neighbor ↔ rnd neighbor x = true)) ∧
      additional_cap node.messages known_msg =
        min (node.messages \ known_msg).card
          (3236 * (node.messages ∩ known_msg).card / 10000) ∧
      sampleExpectation (inclusion_prob node.messages known_msg)
          (node.messages ∩ known_msg) ≤
        ((node.messages ∩ known_msg).card : ℚ) * (3236 / 10000) := by
  obtain ⟨h1, h2, h3⟩ := gossipMsgs_spec node rnd node.neightbors msgs h
  obtain ⟨known_msg, hk, hm⟩ := h3 i neighbor hnb
  refine ⟨h1, h2, known_msg, hk, hm, ?_, ?_, ?_, ?_, ?_⟩
  · intro x hx
    unfold gossipSet
    rw [Finset.mem_union]
    left
    rwa [← Finset.sdiff_eq_filter]
  · exact Finset.union_subset (Finset.filter_subset _ _)
      ((Finset.filter_subset _ _).trans (Finset.filter_subset _ _))
  · intro x hx
    simp only [Finset.mem_inter] at hx
    simp [gossipSet, Finset.mem_union, Finset.mem_filter, hx.1, hx.2]
  · unfold additional_cap
    rw [← Finset.sdiff_eq_filter, Finset.filter_mem_eq_inter]
  · have hle := sampleExpectation_le node.messages known_msg
    rwa [Finset.filter_mem_eq_inter] at hle

/-- Every message emitted by the `GossipAlert` loop carries `id = none`
(`Default::default()` in the source). -/
lemma gossipMsgs_id_none (node : BroadcastNode) (rnd : String → Nat → Bool)
    (l : List String) (msgs : List (Message BroadcastMessage))
    (h : gossipMsgs node rnd l = some msgs) :
    ∀ m ∈ msgs, m.body.id = none := by
  induction l generalizing msgs with
  | nil =>
    simp [gossipMsgs] at h
    subst h
    simp
  | cons neighbor rest ih =>
    rw [gossipMsgs] at h
    cases hk : node.known neighbor with
    | none =>
      rw [hk] at h
      exact absurd h (by simp)
    | some known_msg =>
      rw [hk] at h
      cases hrest : gossipMsgs node rnd rest with
      | none =>
        rw [hrest] at h
        exact absurd h (by simp)
      | some msgs' =>
        rw [hrest] at h
        simp only [Option.some_inj] at h
        subst h
        intro m hm
        rcases List.mem_cons.mp hm with rfl | hmem
        · rfl
        · exact ih msgs' hrest m hmem

/-- Frame facts shared by every successful step of the gossip broadcast
node: `messages` only grows, the key set of `known` is unchanged, `msg_id`
either stays or advances by exactly one and never decreases, and every
output message that carries an id carries the pre-state `msg_id` with the
counter advanced past it. -/
lemma step_master (node node' : BroadcastNode) (req : Message BroadcastMessage)
    (rnd : String → Nat → Bool) (out : List (Message BroadcastMessage))
    (h : node.step req rnd = some (node', out)) :
    node.messages ⊆ node'.messages ∧
    (∀ s, (node'.known s).isSome = (node.known s).isSome) ∧
    (node'.msg_id = node.msg_id ∨ node'.msg_id = node.msg_id + 1) ∧
    node.msg_id ≤ node'.msg_id ∧
    (∀ m ∈ out, ∀ k, m.body.id = some k →
      k = node.msg_id ∧ node'.msg_id = node.msg_id + 1) := by
  cases hp : req.body.payload with
  | Broadcast v =>
    simp only [BroadcastNode.step, hp, Message.into_reply, Option.map_some,
      Option.getD_some, Option.some_inj, Prod.mk.injEq] at h
    obtain ⟨h1, h2⟩ := h
    subst h1
    subst h2
    refine ⟨Finset.subset_insert _ _, fun s => rfl, Or.inr rfl, Nat.le_succ _, ?_⟩
    intro m hm k hk
    rcases List.mem_cons.mp hm with rfl | hmem
    · simp at hk
      exact ⟨hk.symm, rfl⟩
    · simp at hmem
  | Read =>
    simp only [BroadcastNode.step, hp, Message.into_reply, Option.map_some,
      Option.getD_some, Option.some_inj, Prod.mk.injEq] at h
    obtain ⟨h1, h2⟩ := h
    subst h1
    subst h2
    refine ⟨Finset.Subset.refl _, fun s => rfl, Or.inr rfl, Nat.le_succ _, ?_⟩
    intro m hm k hk
    rcases List.mem_cons.mp hm with rfl | hmem
    · simp at hk
      exact ⟨hk.symm, rfl⟩
    · simp at hmem
  | Topology topo =>
    cases ht : lookupKV topo node.id with
    | none =>
      simp [BroadcastNode.step, hp, ht] at h
    | some nbrs =>
      simp only [BroadcastNode.step, hp, ht, Message.into_reply, Option.map_some,
        Option.getD_some, Option.some_inj, Prod.mk.injEq] at h
      obtain ⟨h1, h2⟩ := h
      subst h1
      subst h2
      refine ⟨Finset.Subset.refl _, fun s => rfl, Or.inr rfl, Nat.le_succ _, ?_⟩
      intro m hm k hk
      rcases List.mem_cons.mp hm with rfl | hmem
      · simp at hk
        exact ⟨hk.symm, rfl⟩
      · simp at hmem
  | TopologyOk =>
    simp only [BroadcastNode.step, hp, Option.some_inj, Prod.mk.injEq] at h
    obtain ⟨h1, h2⟩ := h
    subst h1
    subst h2
    exact ⟨Finset.Subset.refl _, fun s => rfl, Or.inl rfl, le_refl _, by simp⟩
  | BroadcastOk =>
    simp only [BroadcastNode.step, hp, Option.some_inj, Prod.mk.injEq] at h
    obtain ⟨h1, h2⟩ := h
    subst h1
    subst h2
    exact ⟨Finset.Subset.refl _, fun s => rfl, Or.inl rfl, le_refl _, by simp⟩
  | ReadOk s =>
    simp only [BroadcastNode.step, hp, Option.some_inj, Prod.mk.injEq] at h
    obtain ⟨h1, h2⟩ := h
    subst h1
    subst h2
    exact ⟨Finset.Subset.refl _, fun s => rfl, Or.inl rfl, le_refl _, by simp⟩
  | Extended g =>
    cases g with
    | GossipAlert =>
      rw [BroadcastNode.step] at h
      simp only [hp] at h
      rw [BroadcastNode.handle_external] at h
      cases ha : gossipAlertStep node rnd with
      | none =>
        rw [ha] at h
        simp at h
      | some msgs =>
        rw [ha] at h
        simp only [Option.some_inj, Prod.mk.injEq] at h
        obtain ⟨h1, h2⟩ := h
        subst h1
        subst h2
        refine ⟨Finset.Subset.refl _, fun s => rfl, Or.inl rfl, le_refl _, ?_⟩
        intro m hm k hk
        have := gossipMsgs_id_none node rnd node.neightbors msgs ha m hm
        rw [this] at hk
        exact absurd hk (by simp)
    | Gossip values =>
      rw [BroadcastNode.step] at h
      simp only [hp] at h
      rw [BroadcastNode.handle_external] at h
      cases hk : node.known req.src with
      | none =>
        rw [hk] at h
        simp at h
      | some ks =>
        rw [hk] at h
        simp only [Option.some_inj, Prod.mk.injEq] at h
        obtain ⟨h1, h2⟩ := h
        subst h1
        subst h2
        refine ⟨Finset.subset_union_left, ?_, Or.inl rfl, le_refl _, by simp⟩
        intro s
        by_cases hs : s = req.src
        · simp [hs, hk]
        · simp [hs]

/-- The `messages` never shrinks along a panic-free run. -/
lemma runSteps_messages_mono (evs : List (Message BroadcastMessage × (String → Nat → Bool))) :
    ∀ node node' : BroadcastNode, runSteps node evs = some node' →
      node.messages ⊆ node'.messages := by
  induction evs with
  | nil =>
    intro node node' h
    simp [runSteps] at h
    subst h
    exact Finset.Subset.refl _
  | cons e rest ih =>
    intro node node' h
    rw [runSteps] at h
    cases hs : node.step e.1 e.2 with
    | none =>
      rw [hs] at h
      simp at h
    | some p =>
      obtain ⟨n₁, outs⟩ := p
      rw [hs] at h
      exact (step_master node n₁ e.1 e.2 outs hs).1.trans (ih n₁ node' h)

/-- If some event of a panic-free run is a `Broadcast v` request, `v` is in
the final `messages`. -/
lemma runSteps_broadcast_mem (v : Nat)
    (evs : List (Message BroadcastMessage × (String → Nat → Bool))) :
    ∀ node node' : BroadcastNode, runSteps node evs = some node' →
      (∃ e ∈ evs, e.1.body.payload = .Broadcast v) →
      v ∈ node'.messages := by
  induction evs with
  | nil =>
    intro node node' _ hex
    simp at hex
  | cons e rest ih =>
    intro node node' h hex
    rw [runSteps] at h
    cases hs : node.step e.1 e.2 with
    | none =>
      rw [hs] at h
      simp at h
    | some p =>
      obtain ⟨n₁, outs⟩ := p
      rw [hs] at h
      rcases hex with ⟨e', he', hpay⟩
      rcases List.mem_cons.mp he' with rfl | hmem
      · have hv : v ∈ n₁.messages := by
          simp only [BroadcastNode.step, hpay, Message.into_reply, Option.map_some,
            Option.getD_some, Option.some_inj, Prod.mk.injEq] at hs
          rw [← hs.1]
          exact Finset.mem_insert_self _ _
        exact runSteps_messages_mono rest n₁ node' h hv
      · exact ih n₁ node' h ⟨e', hmem, hpay⟩

/-- C6: broadcast insertion is idempotent.  A `Broadcast v` step inserts `v`
(a no-op when `v` is already present) and is answered with `broadcast_ok`;
after any panic-free run containing at least one `Broadcast v` event the
`messages` set holds exactly one occurrence of `v` (its underlying multiset
counts `v` once).  The same single-step facts hold for the plain broadcast
variant of `src/bin/broadcast.rs`. -/
theorem c6_broadcast_idempotent (v : Nat) :
    (∀ (node : BroadcastNode) (req : Message BroadcastMessage) (rnd : String → Nat → Bool),
      req.body.payload = .Broadcast v →
      ∃ node' r, node.step req rnd = some (node', [r]) ∧
        r.body.payload = .BroadcastOk ∧
        node'.messages = insert v node.messages ∧
        (v ∈ node.messages → node'.messages = node.messages)) ∧
    (∀ (node node' : BroadcastNode)
        (evs : List (Message BroadcastMessage × (String → Nat → Bool))),
      runSteps node evs = some node' →
      (∃ e ∈ evs, e.1.body.payload = .Broadcast v) →
      node'.messages.val.count v = 1) ∧
    (∀ (node : SimpleBroadcastNode) (req : Message SimpleBroadcastMessage),
      req.body.payload = .Broadcast v →
      (node.step req).1.messages = insert v node.messages ∧
      (v ∈ node.messages → (node.step req).1.messages = node.messages) ∧
      ∃ r, (node.step req).2 = [r] ∧ r.body.payload = .BroadcastOk) := by
  refine ⟨?_, ?_, ?_⟩
  · intro node req rnd hp
    refine ⟨{ node with messages := insert v node.messages, msg_id := node.msg_id + 1 },
      { src := req.dst, dst := req.src,
        body := { id := some node.msg_id, in_reply_to := req.body.id,
                  payload := .BroadcastOk } },
      ?_, rfl, rfl, ?_⟩
    · simp [BroadcastNode.step, hp, Message.into_reply]
    · intro hv
      simp [Finset.insert_eq_self.mpr hv]
  · intro node node' evs h hex
    exact Multiset.count_eq_one_of_mem node'.messages.nodup
      (runSteps_broadcast_mem v evs node node' h hex)
  · intro node req hp
    refine ⟨?_, ?_, ?_⟩
    · simp [SimpleBroadcastNode.step, hp]
    · intro hv
      simp [SimpleBroadcastNode.step, hp, Finset.insert_eq_self.mpr hv]
    · refine ⟨{ src := req.dst, dst := req.src,
                body := { id := some node.msg_id, in_reply_to := req.body.id,
                          payload := .BroadcastOk } }, ?_, rfl⟩
      simp [SimpleBroadcastNode.step, hp, Message.into_reply]

/-- A concrete counter node (fresh from the init handshake) used to exhibit
the counter variant's behaviour on reply-type payloads. -/
def counterNodeCE : CounterNode := CounterNode.init_from "n1" ["n1", "n2"]

/-- C7 counterexample: the counter variant does NOT silently ignore
reply-type payloads — an `add_ok` with no pending correlation hits the
source's `unreachable!()` and terminates the process (modelled by `none`). -/
theorem c7_counterexample :
    counterNodeCE.step
      { src := "c1", dst := "n1",
        body := { id := some 1, in_reply_to := none, payload := .AddOk } } = none := rfl

/-- C7 (amended): in the broadcast variants a received reply-type payload
(`broadcast_ok`, `read_ok`, `topology_ok`) is silently ignored — the step
succeeds, emits no output and leaves the state unchanged; the counter
variant instead treats `add_ok`/`read_ok` as `unreachable!()` and panics. -/
theorem c7_ok_payloads_ignored :
    (∀ (node : BroadcastNode) (req : Message BroadcastMessage) (rnd : String → Nat → Bool),
      (req.body.payload = .BroadcastOk ∨ req.body.payload = .TopologyOk ∨
        ∃ s, req.body.payload = .ReadOk s) →
      node.step req rnd = some (node, [])) ∧
    (∀ (node : SimpleBroadcastNode) (req : Message SimpleBroadcastMessage),
      (req.body.payload = .BroadcastOk ∨ req.body.payload = .TopologyOk ∨
        ∃ s, req.body.payload = .ReadOk s) →
      node.step req = (node, [])) ∧
    (∀ (node : CounterNode) (req : Message GlobalCounter),
      (req.body.payload = .AddOk ∨ ∃ n, req.body.payload = .ReadOk n) →
      node.step req = none) := by
  refine ⟨?_, ?_, ?_⟩
  · intro node req rnd hp
    rcases hp with hp | hp | ⟨s, hp⟩ <;> simp [BroadcastNode.step, hp]
  · intro node req hp
    rcases hp with hp | hp | ⟨s, hp⟩ <;> simp [SimpleBroadcastNode.step, hp]
  · intro node req hp
    rcases hp with hp | ⟨n, hp⟩ <;> simp [CounterNode.step, hp]

/-- The per-key result of the counter merge: `max` across both maps on the
union of their key sets, passing a missing side through. -/
def combineMax : Option Nat → Option Nat → Option Nat
  | some x, some y => some (max x y)
  | some x, none => some x
  | none, some y => some y
  | none, none => none

/-- The `insertMax` at the inserted key: `max` of the incoming value with the
existing slot, or the incoming value for a fresh key. -/
lemma lookupKV_insertMax_self (c : List (String × Nat)) (k : String) (v : Nat) :
    lookupKV (insertMax c k v) k =
      some (match lookupKV c k with | some x => max v x | none => v) := by
  induction c with
  | nil => simp [insertMax, lookupKV]
  | cons p rest ih =>
    obtain ⟨k₀, v₀⟩ := p
    by_cases hk : k₀ = k
    · simp [insertMax, lookupKV, hk]
    · simp [insertMax, lookupKV, hk, ih]

/-- The `insertMax` leaves every other key's slot unchanged. -/
lemma lookupKV_insertMax_other (c : List (String × Nat)) (k k' : String) (v : Nat)
    (h : k' ≠ k) :
    lookupKV (insertMax c k v) k' = lookupKV c k' := by
  induction c with
  | nil => simp [insertMax, lookupKV, Ne.symm h]
  | cons p rest ih =>
    obtain ⟨k₀, v₀⟩ := p
    by_cases hk : k₀ = k
    · subst hk
      simp [insertMax, lookupKV, Ne.symm h]
    · simp [insertMax, lookupKV, hk, ih]

/-- A key absent from an association list's key list looks up to `none`. -/
lemma lookupKV_eq_none (c : List (String × Nat)) (k : String)
    (h : k ∉ c.map Prod.fst) : lookupKV c k = none := by
  induction c with
  | nil => rfl
  | cons p rest ih =>
    obtain ⟨k₀, v₀⟩ := p
    simp only [List.map_cons, List.mem_cons, not_or] at h
    rw [lookupKV, if_neg (fun hh => h.1 hh.symm)]
    exact ih h.2

/-- Characterization of `Counter::merge`: for every key, the merged slot is
`combineMax` of the two sides (assuming the incoming map, a `HashMap` on the
wire, has no duplicate keys). -/
lemma lookupKV_mergeCounter :
    ∀ (incoming loc : List (String × Nat)) (k : String),
      (incoming.map Prod.fst).Nodup →
      lookupKV (mergeCounter loc incoming) k =
        combineMax (lookupKV loc k) (lookupKV incoming k) := by
  intro incoming
  induction incoming with
  | nil =>
    intro loc k _
    cases h : lookupKV loc k <;> simp [mergeCounter, lookupKV, combineMax, h]
  | cons p rest ih =>
    intro loc k hnd
    obtain ⟨k₀, v₀⟩ := p
    simp only [List.map_cons, List.nodup_cons] at hnd
    have hstep : mergeCounter loc ((k₀, v₀) :: rest) =
        mergeCounter (insertMax loc k₀ v₀) rest := rfl
    rw [hstep, ih (insertMax loc k₀ v₀) k hnd.2]
    by_cases hk : k₀ = k
    · subst hk
      rw [lookupKV_insertMax_self, lookupKV_eq_none rest k₀ hnd.1]
      have hrhs : lookupKV ((k₀, v₀) :: rest) k₀ = some v₀ := by
        rw [lookupKV, if_pos rfl]
      rw [hrhs]
      cases hloc : lookupKV loc k₀ <;> simp [combineMax, max_comm]
    · rw [lookupKV_insertMax_other loc k₀ k v₀ (fun hh => hk hh.symm)]
      have hrhs : lookupKV ((k₀, v₀) :: rest) k = lookupKV rest k := by
        rw [lookupKV, if_neg hk]
      rw [hrhs]

/-- C8: the counter CRDT merge keeps, per key over the union of both key
sets, the maximum of local and incoming (a present/absent side passes
through); merge is commutative and idempotent up to map equality (equality
of every key's slot, which is `HashMap` equality); and a `Read` request is
answered with `read_ok` carrying the sum of all slots of the (merged) map. -/
theorem c8_counter_merge :
    (∀ (a b : List (String × Nat)) (k : String),
      (b.map Prod.fst).Nodup →
      lookupKV (mergeCounter a b) k = combineMax (lookupKV a k) (lookupKV b k) ∧
      ((lookupKV (mergeCounter a b) k).isSome ↔
        (lookupKV a k).isSome ∨ (lookupKV b k).isSome)) ∧
    (∀ (a b : List (String × Nat)) (k : String),
      (a.map Prod.fst).Nodup → (b.map Prod.fst).Nodup →
      lookupKV (mergeCounter a b) k = lookupKV (mergeCounter b a) k) ∧
    (∀ (a : List (String × Nat)) (k : String),
      (a.map Prod.fst).Nodup →
      lookupKV (mergeCounter a a) k = lookupKV a k) ∧
    (∀ (node : CounterNode) (req : Message GlobalCounter),
      req.body.payload = .Read →
      ∃ node' r, node.step req = some (node', [r]) ∧
        r.body.payload = .ReadOk (sumCounter node.inner) ∧
        node'.inner = node.inner ∧ r.src = req.dst ∧ r.dst = req.src ∧
        r.body.in_reply_to = req.body.id) := by
  refine ⟨?_, ?_, ?_, ?_⟩
  · intro a b k hb
    refine ⟨lookupKV_mergeCounter b a k hb, ?_⟩
    rw [lookupKV_mergeCounter b a k hb]
    cases lookupKV a k <;> cases lookupKV b k <;> simp [combineMax]
  · intro a b k ha hb
    rw [lookupKV_mergeCounter b a k hb, lookupKV_mergeCounter a b k ha]
    cases lookupKV a k <;> cases lookupKV b k <;> simp [combineMax, max_comm]
  · intro a k ha
    rw [lookupKV_mergeCounter a a k ha]
    cases lookupKV a k <;> simp [combineMax]
  · intro node req hp
    refine ⟨{ node with msg_id := node.msg_id + 1 },
      { src := req.dst, dst := req.src,
        body := { id := some node.msg_id, in_reply_to := req.body.id,
                  payload := .ReadOk (sumCounter node.inner) } },
      ?_, rfl, rfl, rfl, rfl, rfl⟩
    simp [CounterNode.step, hp, Message.into_reply]

/-- The `msg_id` never decreases along a panic-free run (never reset). -/
lemma runSteps_msg_id_mono (evs : List (Message BroadcastMessage × (String → Nat → Bool))) :
    ∀ node node' : BroadcastNode, runSteps node evs = some node' →
      node.msg_id ≤ node'.msg_id := by
  induction evs with
  | nil =>
    intro node node' h
    simp [runSteps] at h
    subst h
    exact le_refl _
  | cons e rest ih =>
    intro node node' h
    rw [runSteps] at h
    cases hs : node.step e.1 e.2 with
    | none =>
      rw [hs] at h
      simp at h
    | some p =>
      obtain ⟨n₁, outs⟩ := p
      rw [hs] at h
      exact le_trans (step_master node n₁ e.1 e.2 outs hs).2.2.2.1 (ih n₁ node' h)

/-- A concrete gossip broadcast node holding value `5`, with one neighbor
`n2` whose known set is empty. -/
def gossipNodeCE : BroadcastNode :=
  { id := "n1"
    msg_id := 1
    messages := {5}
    neightbors := ["n2"]
    known := fun s => if s ∈ (["n1", "n2"] : List String) then some ∅ else none }

/-- C9 counterexample: the node-originated gossip message produced on a tick
carries `body.id = none` — it does NOT carry a fresh id drawn from the
node's message-id counter, contradicting the claim for node-originated
gossip messages. -/
theorem c9_counterexample :
    gossipAlertStep gossipNodeCE (fun _ _ => false) =
      some [{ src := "n1", dst := "n2",
              body := { id := none, in_reply_to := none,
                        payload := .Extended (.Gossip {5}) } }] := by
  decide

/-- C9 (amended): the private message-id counter starts at 1 in every node
variant and advances by exactly 1 each time an id is assigned via
`into_reply`; along any panic-free run it never decreases (never reset), a
step advances it by at most one, and every output message that carries an
id carries the pre-state counter value with the counter advanced past it
(never reused).  However, node-originated gossip messages carry no id at
all (`body.id = none`), so only replies draw ids from the counter. -/
theorem c9_msg_id_discipline :
    (∀ (nid : String) (nids : List String),
      (BroadcastNode.init_from nid nids).msg_id = 1 ∧
      (CounterNode.init_from nid nids).msg_id = 1) ∧
    (∀ (m : Message BroadcastMessage) (c : Nat),
      (m.into_reply (some c)).1.body.id = some c ∧
      (m.into_reply (some c)).2 = some (c + 1)) ∧
    (∀ (node node' : BroadcastNode) (req : Message BroadcastMessage)
        (rnd : String → Nat → Bool) (out : List (Message BroadcastMessage)),
      node.step req rnd = some (node', out) →
      node.msg_id ≤ node'.msg_id ∧
      (node'.msg_id = node.msg_id ∨ node'.msg_id = node.msg_id + 1) ∧
      (∀ m ∈ out, ∀ k, m.body.id = some k →
        k = node.msg_id ∧ node'.msg_id = node.msg_id + 1)) ∧
    (∀ (node node' : BroadcastNode)
        (evs : List (Message BroadcastMessage × (String → Nat → Bool))),
      runSteps node evs = some node' → node.msg_id ≤ node'.msg_id) ∧
    (∀ (node : BroadcastNode) (rnd : String → Nat → Bool)
        (msgs : List (Message BroadcastMessage)),
      gossipAlertStep node rnd = some msgs → ∀ m ∈ msgs, m.body.id = none) := by
  refine ⟨?_, ?_, ?_, ?_, ?_⟩
  · intro nid nids
    exact ⟨rfl, rfl⟩
  · intro m c
    exact ⟨rfl, rfl⟩
  · intro node node' req rnd out h
    obtain ⟨-, -, h3, h4, h5⟩ := step_master node node' req rnd out h
    exact ⟨h4, h3, h5⟩
  · intro node node' evs h
    exact runSteps_msg_id_mono evs node node' h
  · intro node rnd msgs h
    exact gossipMsgs_id_none node rnd node.neightbors msgs h

/-- The gossip loop panics (yields `none`) as soon as some listed neighbor
has no entry in `known`. -/
lemma gossipMsgs_eq_none (node : BroadcastNode) (rnd : String → Nat → Bool)
    (l : List String) (h : ∃ nbr ∈ l, node.known nbr = none) :
    gossipMsgs node rnd l = none := by
  induction l with
  | nil => simp at h
  | cons nbr rest ih =>
    rcases h with ⟨n, hn, hnone⟩
    rcases List.mem_cons.mp hn with rfl | hmem
    · simp [gossipMsgs, hnone]
    · cases hk : node.known nbr with
      | none => simp [gossipMsgs, hk]
      | some ks => simp [gossipMsgs, hk, ih ⟨n, hmem, hnone⟩]

/-- The gossip loop succeeds when every listed neighbor has a `known` entry. -/
lemma gossipMsgs_eq_some (node : BroadcastNode) (rnd : String → Nat → Bool)
    (l : List String) (h : ∀ nbr ∈ l, (node.known nbr).isSome) :
    ∃ msgs, gossipMsgs node rnd l = some msgs := by
  induction l with
  | nil => exact ⟨[], rfl⟩
  | cons nbr rest ih =>
    obtain ⟨ks, hk⟩ := Option.isSome_iff_exists.mp (h nbr (List.mem_cons_self nbr rest))
    obtain ⟨msgs, hmsgs⟩ := ih (fun n hn => h n (List.mem_cons_of_mem _ hn))
    exact ⟨gossipMsgFor node rnd nbr ks :: msgs, by simp [gossipMsgs, hk, hmsgs]⟩

/-- C10: the key set of `known` is fixed at init (one key per id of the
handshake's `node_ids`) and never changes across steps; a `Gossip` message
whose `src` has no `known` entry panics the step, and a tick panics as soon
as some current neighbor has no `known` entry; conversely, when senders and
neighbors all have `known` entries, these failure branches are unreachable
and the step succeeds. -/
theorem c10_known_keys_safety :
    (∀ (nid : String) (nids : List String) (s : String),
      ((BroadcastNode.init_from nid nids).known s).isSome ↔ s ∈ nids) ∧
    (∀ (node node' : BroadcastNode) (req : Message BroadcastMessage)
        (rnd : String → Nat → Bool) (out : List (Message BroadcastMessage)),
      node.step req rnd = some (node', out) →
      ∀ s, (node'.known s).isSome = (node.known s).isSome) ∧
    (∀ (node : BroadcastNode) (req : Message BroadcastMessage)
        (rnd : String → Nat → Bool) (values : Finset Nat),
      req.body.payload = .Extended (.Gossip values) →
      node.known req.src = none →
      node.step req rnd = none) ∧
    (∀ (node : BroadcastNode) (req : Message BroadcastMessage)
        (rnd : String → Nat → Bool),
      req.body.payload = .Extended .GossipAlert →
      (∃ nbr ∈ node.neightbors, node.known nbr = none) →
      node.step req rnd = none) ∧
    (∀ (node : BroadcastNode) (req : Message BroadcastMessage)
        (rnd : String → Nat → Bool) (values : Finset Nat),
      req.body.payload = .Extended (.Gossip values) →
      (node.known req.src).isSome →
      ∃ node', node.step req rnd = some (node', [])) ∧
    (∀ (node : BroadcastNode) (req : Message BroadcastMessage)
        (rnd : String → Nat → Bool),
      req.body.payload = .Extended .GossipAlert →
      (∀ nbr ∈ node.neightbors, (node.known nbr).isSome) →
      ∃ msgs, node.step req rnd = some (node, msgs)) := by
  refine ⟨?_, ?_, ?_, ?_, ?_, ?_⟩
  · intro nid nids s
    by_cases hs : s ∈ nids <;> simp [BroadcastNode.init_from, hs]
  · intro node node' req rnd out h
    exact (step_master node node' req rnd out h).2.1
  · intro node req rnd values hp hk
    simp [BroadcastNode.step, hp, BroadcastNode.handle_external, hk]
  · intro node req rnd hp hex
    simp [BroadcastNode.step, hp, BroadcastNode.handle_external, gossipAlertStep,
      gossipMsgs_eq_none node rnd node.neightbors hex]
  · intro node req rnd values hp hk
    obtain ⟨ks, hks⟩ := Option.isSome_iff_exists.mp hk
    refine ⟨{ node with
                known := fun s => if s = req.src then some (ks ∪ values) else node.known s
                messages := node.messages ∪ values }, ?_⟩
    simp [BroadcastNode.step, hp, BroadcastNode.handle_external, hks]
  · intro node req rnd hp h
    obtain ⟨msgs, hmsgs⟩ := gossipMsgs_eq_some node rnd node.neightbors h
    refine ⟨msgs, ?_⟩
    simp [BroadcastNode.step, hp, BroadcastNode.handle_external, gossipAlertStep, hmsgs]

/-- An RNG oracle whose coin always comes up false. -/
def rndFalse : String → Nat → Bool := fun _ _ => false

/-- Concrete node for exercising the gossip tick. -/
def c1nodeW : BroadcastNode :=
  { id := "n1"
    msg_id := 1
    messages := {1, 2, 3}
    neightbors := ["n2"]
    known := fun s => if s = "n2" then some {2, 3} else none }

/-- The RNG oracle accepting exactly the value 2. -/
def c1rndW : String → Nat → Bool := fun _ x => x == 2

/-- The gossip message list `c1nodeW` emits on a tick under `c1rndW`. -/
def c1msgsW : List (Message BroadcastMessage) :=
  [{ src := "n1", dst := "n2",
     body := { id := none, in_reply_to := none,
               payload := .Extended (.Gossip {1, 2}) } }]

/-- Witness for C1 at a concrete node, oracle and neighbor. -/
theorem c1_witness :
    (gossipAlertStep c1nodeW c1rndW = some c1msgsW ∧
      c1nodeW.neightbors[0]? = some "n2") ∧
    c1msgsW.length = c1nodeW.neightbors.length ∧
    c1msgsW.map (fun m => m.dst) = c1nodeW.neightbors :=
  ⟨⟨by decide, by decide⟩,
   (c1_gossip_tick_payload c1nodeW c1rndW c1msgsW (by decide) 0 "n2" (by decide)).1,
   (c1_gossip_tick_payload c1nodeW c1rndW c1msgsW (by decide) 0 "n2" (by decide)).2.1⟩

/-- Concrete node for exercising the gossip-merge step. -/
def c2nodeW : BroadcastNode :=
  { id := "n1"
    msg_id := 1
    messages := {5}
    neightbors := ["n2"]
    known := fun s => if s = "n2" then some {7} else none }

/-- A gossip request from `n2` carrying `{5, 9}`. -/
def c2reqW : Message BroadcastMessage :=
  { src := "n2", dst := "n1",
    body := { id := none, in_reply_to := none,
              payload := .Extended (.Gossip {5, 9}) } }

/-- Witness for C2 at a concrete node and request. -/
theorem c2_witness :
    (c2reqW.body.payload = .Extended (.Gossip {5, 9}) ∧
      c2nodeW.known c2reqW.src = some {7}) ∧
    (∃ node', c2nodeW.step c2reqW rndFalse = some (node', []) ∧
      node'.messages = c2nodeW.messages ∪ {5, 9} ∧
      node'.known c2reqW.src = some ({7} ∪ {5, 9})) := by
  refine ⟨⟨rfl, by decide⟩, ?_⟩
  obtain ⟨node', h1, h2, h3, -⟩ :=
    c2_gossip_merge c2nodeW c2reqW rndFalse {5, 9} {7} rfl (by decide)
  exact ⟨node', h1, h2, h3⟩

/-- Concrete node for exercising the topology step. -/
def c4nodeW : BroadcastNode := BroadcastNode.init_from "n1" ["n1", "n2", "n3"]

/-- A topology request mapping `n1` to `["n2", "n3"]`. -/
def c4reqW : Message BroadcastMessage :=
  { src := "c1", dst := "n1",
    body := { id := some 4, in_reply_to := none,
              payload := .Topology [("n1", ["n2", "n3"])] } }

/-- Witness for C4 at a concrete node and topology. -/
theorem c4_witness :
    (c4reqW.body.payload = .Topology [("n1", ["n2", "n3"])] ∧
      lookupKV [("n1", ["n2", "n3"])] c4nodeW.id = some ["n2", "n3"]) ∧
    (∃ node' r, c4nodeW.step c4reqW rndFalse = some (node', [r]) ∧
      node'.neightbors = ["n2", "n3"] ∧ r.body.payload = .TopologyOk) := by
  refine ⟨⟨rfl, by decide⟩, ?_⟩
  obtain ⟨node', r, h1, h2, h3, -⟩ :=
    (c4_topology c4nodeW c4reqW rndFalse [("n1", ["n2", "n3"])] rfl).2
      ["n2", "n3"] (by decide)
  exact ⟨node', r, h1, h2, h3⟩

/-- Concrete node for exercising the read step. -/
def c5nodeW : BroadcastNode :=
  { id := "n1"
    msg_id := 1
    messages := {1, 2}
    neightbors := ["n2"]
    known := fun _ => some ∅ }

/-- A read request. -/
def c5reqW : Message BroadcastMessage :=
  { src := "c1", dst := "n1",
    body := { id := some 9, in_reply_to := none, payload := .Read } }

/-- Witness for C5 at a concrete node. -/
theorem c5_witness :
    c5reqW.body.payload = BroadcastMessage.Read ∧
    (∃ node' r, c5nodeW.step c5reqW rndFalse = some (node', [r]) ∧
      r.body.payload = .ReadOk {1, 2} ∧
      node'.messages = c5nodeW.messages ∧ node'.msg_id = 2) := by
  refine ⟨rfl, ?_⟩
  obtain ⟨node', r, h1, h2, -, -, -, -, h3, -, -, -, h4⟩ :=
    c5_read_snapshot c5nodeW c5reqW rndFalse rfl
  exact ⟨node', r, h1, h2, h3, h4⟩

/-- Concrete node for exercising broadcast insertion. -/
def c6nodeW : BroadcastNode := BroadcastNode.init_from "n1" ["n1", "n2"]

/-- A broadcast request carrying value 5. -/
def c6reqW : Message BroadcastMessage :=
  { src := "c1", dst := "n1",
    body := { id := some 1, in_reply_to := none, payload := .Broadcast 5 } }

/-- Witness for C6: one `Broadcast 5` event yields exactly one copy of 5. -/
theorem c6_witness :
    c6reqW.body.payload = .Broadcast 5 ∧
    (∃ node', runSteps c6nodeW [(c6reqW, rndFalse)] = some node' ∧
      node'.messages.val.count 5 = 1) ∧
    (∃ node' r, c6nodeW.step c6reqW rndFalse = some (node', [r]) ∧
      r.body.payload = .BroadcastOk) := by
  obtain ⟨node', r, hstep, hok, -, -⟩ :=
    (c6_broadcast_idempotent 5).1 c6nodeW c6reqW rndFalse rfl
  have hrun : runSteps c6nodeW [(c6reqW, rndFalse)] = some node' := by
    simp [runSteps, hstep]
  refine ⟨rfl, ⟨node', hrun, ?_⟩, node', r, hstep, hok⟩
  exact (c6_broadcast_idempotent 5).2.1 c6nodeW node' [(c6reqW, rndFalse)] hrun
    ⟨(c6reqW, rndFalse), by simp, rfl⟩

/-- Concrete broadcast node for exercising the ok-payload arms. -/
def c7nodeW : BroadcastNode := BroadcastNode.init_from "n1" ["n1", "n2"]

/-- A stray `broadcast_ok` reply delivered to the gossip broadcast node. -/
def c7reqW : Message BroadcastMessage :=
  { src := "n2", dst := "n1",
    body := { id := none, in_reply_to := some 3, payload := .BroadcastOk } }

/-- A stray `add_ok` reply delivered to the counter node. -/
def c7creqW : Message GlobalCounter :=
  { src := "n2", dst := "n1",
    body := { id := none, in_reply_to := some 3, payload := .AddOk } }

/-- Witness for C7 (amended): broadcast node ignores, counter node panics. -/
theorem c7_witness :
    c7reqW.body.payload = BroadcastMessage.BroadcastOk ∧
    c7nodeW.step c7reqW rndFalse = some (c7nodeW, []) ∧
    counterNodeCE.step c7creqW = none :=
  ⟨rfl,
   c7_ok_payloads_ignored.1 c7nodeW c7reqW rndFalse (Or.inl rfl),
   c7_ok_payloads_ignored.2.2 counterNodeCE c7creqW (Or.inl rfl)⟩

/-- Concrete counter node for exercising the counter read. -/
def c8nodeW : CounterNode :=
  { id := "n1", msg_id := 1, neightbors := ["n1", "n2"],
    inner := [("n1", 3), ("n2", 4)] }

/-- A counter read request. -/
def c8reqW : Message GlobalCounter :=
  { src := "c1", dst := "n1",
    body := { id := some 2, in_reply_to := none, payload := .Read } }

/-- Witness for C8 at concrete maps and a concrete read. -/
theorem c8_witness :
    (([("n1", 5), ("n2", 2)] : List (String × Nat)).map Prod.fst).Nodup ∧
    lookupKV (mergeCounter [("n1", 3)] [("n1", 5), ("n2", 2)]) "n1" =
      combineMax (lookupKV [("n1", 3)] "n1") (lookupKV [("n1", 5), ("n2", 2)] "n1") ∧
    (∃ node' r, c8nodeW.step c8reqW = some (node', [r]) ∧
      r.body.payload = .ReadOk (sumCounter c8nodeW.inner)) := by
  refine ⟨by decide, (c8_counter_merge.1 [("n1", 3)] [("n1", 5), ("n2", 2)] "n1" (by decide)).1, ?_⟩
  obtain ⟨node', r, h1, h2, -⟩ := c8_counter_merge.2.2.2 c8nodeW c8reqW rfl
  exact ⟨node', r, h1, h2⟩

/-- Concrete node for exercising id assignment. -/
def c9nodeW : BroadcastNode :=
  { id := "n1", msg_id := 1, messages := ∅, neightbors := ["n2"],
    known := fun _ => some ∅ }

/-- A broadcast request with `msg_id = 3` from the client. -/
def c9reqW : Message BroadcastMessage :=
  { src := "c1", dst := "n1",
    body := { id := some 3, in_reply_to := none, payload := .Broadcast 5 } }

/-- The post-step state of `c9nodeW` after `c9reqW`. -/
def c9nodeW' : BroadcastNode :=
  { id := "n1", msg_id := 2, messages := insert 5 ∅, neightbors := ["n2"],
    known := fun _ => some ∅ }

/-- The reply to `c9reqW`. -/
def c9replyW : Message BroadcastMessage :=
  { src := "n1", dst := "c1",
    body := { id := some 1, in_reply_to := some 3, payload := .BroadcastOk } }

/-- The gossip message emitted by `c9nodeW` on a tick. -/
def c9gossipW : Message BroadcastMessage :=
  { src := "n1", dst := "n2",
    body := { id := none, in_reply_to := none,
              payload := .Extended (.Gossip (gossipSet c9nodeW.messages ∅ rndFalse "n2")) } }

/-- Witness for C9 (amended) at a concrete step and a concrete tick. -/
theorem c9_witness :
    (BroadcastNode.init_from "n1" ["n1", "n2"]).msg_id = 1 ∧
    (c9nodeW.step c9reqW rndFalse = some (c9nodeW', [c9replyW]) ∧
      c9nodeW.msg_id ≤ c9nodeW'.msg_id ∧
      (∀ m ∈ [c9replyW], ∀ k, m.body.id = some k →
        k = c9nodeW.msg_id ∧ c9nodeW'.msg_id = c9nodeW.msg_id + 1)) ∧
    (gossipAlertStep c9nodeW rndFalse = some [c9gossipW] ∧
      c9gossipW.body.id = none) := by
  have hstep : c9nodeW.step c9reqW rndFalse = some (c9nodeW', [c9replyW]) := rfl
  have htick : gossipAlertStep c9nodeW rndFalse = some [c9gossipW] := rfl
  obtain ⟨h1, -, h3⟩ :=
    c9_msg_id_discipline.2.2.1 c9nodeW c9nodeW' c9reqW rndFalse [c9replyW] hstep
  refine ⟨c9_msg_id_discipline.1 "n1" ["n1", "n2"] |>.1, ⟨hstep, h1, h3⟩, htick, ?_⟩
  exact c9_msg_id_discipline.2.2.2.2 c9nodeW rndFalse [c9gossipW] htick c9gossipW
    (by simp)

/-- A node whose `known` map is empty (no key has an entry). -/
def c10nodeW : BroadcastNode :=
  { id := "n1", msg_id := 1, messages := {1}, neightbors := ["nX"],
    known := fun _ => none }

/-- A gossip request from the unknown sender `nX`. -/
def c10reqW : Message BroadcastMessage :=
  { src := "nX", dst := "n1",
    body := { id := none, in_reply_to := none,
              payload := .Extended (.Gossip {1}) } }

/-- A node whose `known` map has an entry for every id. -/
def c10nodeW2 : BroadcastNode :=
  { id := "n1", msg_id := 1, messages := {1}, neightbors := ["n2"],
    known := fun _ => some ∅ }

/-- The internal tick event. -/
def c10tickW : Message BroadcastMessage :=
  { src := "", dst := "",
    body := { id := none, in_reply_to := none, payload := .Extended .GossipAlert } }

/-- Witness for C10: a gossip from an unknown sender panics; a tick with all
neighbors known succeeds; the init key set matches `node_ids`. -/
theorem c10_witness :
    (c10reqW.body.payload = .Extended (.Gossip {1}) ∧
      c10nodeW.known c10reqW.src = none) ∧
    c10nodeW.step c10reqW rndFalse = none ∧
    (((BroadcastNode.init_from "n1" ["n1", "n2"]).known "n2").isSome ↔
      "n2" ∈ ["n1", "n2"]) ∧
    (∃ msgs, c10nodeW2.step c10tickW rndFalse = some (c10nodeW2, msgs)) := by
  refine ⟨⟨rfl, rfl⟩,
    c10_known_keys_safety.2.2.1 c10nodeW c10reqW rndFalse {1} rfl rfl,
    c10_known_keys_safety.1 "n1" ["n1", "n2"] "n2", ?_⟩
  exact c10_known_keys_safety.2.2.2.2.2 c10nodeW2 c10tickW rndFalse rfl
    (fun nbr _ => rfl)
